import Mathlib

/-!
Shallow embedding of the lunar-lander simulation core (terrain generation,
terrain-height lookup, lander physics, reset) of the Luna repository.
Floating-point values are modelled as real numbers; the C `int` cast is
modelled as truncation toward zero on the integers.
-/

noncomputable section

namespace Luna

open Real

/-- A 2-component vector, modelling `glm::vec2`. -/
structure Vec2 where
  x : ℝ
  y : ℝ

instance : Inhabited Vec2 := ⟨⟨0, 0⟩⟩

/-- `glm::mix(a, b, t) = a + (b - a) * t` (linear interpolation). -/
def mix (a b t : ℝ) : ℝ := a + (b - a) * t

/-- Truncation toward zero, modelling `static_cast<int>` on a real value. -/
def truncInt (r : ℝ) : ℤ := if 0 ≤ r then ⌊r⌋ else ⌈r⌉

/-- `std::clamp` on integers: `v < lo → lo`, `hi < v → hi`, else `v`. -/
def clampInt (v lo hi : ℤ) : ℤ := if v < lo then lo else if hi < v then hi else v

/-- `std::clamp` on reals. -/
def clampR (v lo hi : ℝ) : ℝ := if v < lo then lo else if hi < v then hi else v

/-- C `fmod` for a positive modulus: `a - b * trunc(a / b)`. -/
def fmodR (a b : ℝ) : ℝ := a - b * truncInt (a / b)

-- World constants (from the source's constexpr block).
def WORLD_WIDTH : ℝ := 40
def WORLD_HEIGHT : ℝ := 22.5
def LANDING_PAD_WIDTH : ℝ := 3
def TERRAIN_SEGMENTS : ℕ := 200
def LUNAR_GRAVITY : ℝ := 1.62
def THRUST_POWER : ℝ := 4
def ROTATION_SPEED : ℝ := 2.5
def INITIAL_FUEL : ℝ := 100
def FUEL_BURN_RATE : ℝ := 8
def SAFE_LANDING_VEL : ℝ := 2
def SAFE_LANDING_ANGLE : ℝ := 0.26

/-- Simulation mode of the lander (`enum class SimState`). -/
inductive SimState where
  | Flying
  | Landed
  | Crashed
deriving DecidableEq

/-- The lander's kinematic state (`struct Lander`). -/
structure Lander where
  pos : Vec2
  vel : Vec2
  angle : ℝ
  fuel : ℝ
  thrusting : Bool
  state : SimState

/-- The default-constructed `Lander{}`: center of world, at rest, full fuel. -/
def landerDefault : Lander :=
  { pos := ⟨WORLD_WIDTH / 2, WORLD_HEIGHT / 2⟩
    vel := ⟨0, 0⟩
    angle := 0
    fuel := 100
    thrusting := false
    state := SimState.Flying }

/-- A background star (`struct StarVertex`). -/
structure StarVertex where
  pos : Vec2
  brightness : ℝ
  size : ℝ

/-- The simulation-relevant state of the application: the lander, the
terrain height samples, the landing-pad center, and the star list. -/
structure SimApp where
  lander : Lander
  terrainPoints : List Vec2
  landingPadX : ℝ
  stars : List StarVertex

/-- `resetLander`: replaces the lander by the default-constructed one. -/
def resetLander (s : SimApp) : SimApp := { s with lander := landerDefault }

/-- The terrain height sample generated at position `x` for pad center
`landingPadX` (the body of the loop in `generateTerrain`). -/
def terrainHeightAt (landingPadX x : ℝ) : ℝ :=
  let padLeft := landingPadX - LANDING_PAD_WIDTH / 2
  let padRight := landingPadX + LANDING_PAD_WIDTH / 2
  if padLeft ≤ x ∧ x ≤ padRight then
    2
  else
    let height := 2 + 1.5 * Real.sin (x * 0.3) + 0.8 * Real.sin (x * 0.7 + 1)
        + 0.4 * Real.sin (x * 1.5 + 2) + 0.2 * Real.sin (x * 3 + 0.5)
    let height := max height 0.5
    let distToPad := min |x - padLeft| |x - padRight|
    if distToPad < 2 then mix 2 height ((distToPad / 2) * (distToPad / 2))
    else height

/-- `generateTerrain`, with the randomly drawn pad center as parameter:
samples `i * dx` for `i = 0 .. TERRAIN_SEGMENTS`. -/
def generateTerrain (landingPadX : ℝ) : List Vec2 :=
  (List.range (TERRAIN_SEGMENTS + 1)).map (fun (i : ℕ) =>
    let x : ℝ := (i : ℝ) * (WORLD_WIDTH / (TERRAIN_SEGMENTS : ℝ))
    ⟨x, terrainHeightAt landingPadX x⟩)

/-- `getTerrainHeight`: piecewise-linear interpolation of the terrain
sample list, with index and parameter clamped. -/
def getTerrainHeight (terrainPoints : List Vec2) (x : ℝ) : ℝ :=
  if terrainPoints.isEmpty then 0
  else
    let dx : ℝ := WORLD_WIDTH / (TERRAIN_SEGMENTS : ℝ)
    let idx : ℤ := clampInt (truncInt (x / dx)) 0 ((terrainPoints.length : ℤ) - 2)
    let p0 := terrainPoints.getD idx.toNat default
    let p1 := terrainPoints.getD (idx.toNat + 1) default
    let t := clampR ((x - p0.x) / dx) 0 1
    mix p0.y p1.y t

/-- Tilt normalization used at ground contact:
`abs(fmod(angle, 2π))`, reflected by `2π - a` when above `π`. -/
def tiltOf (angle : ℝ) : ℝ :=
  let absAngle := |fmodR angle (2 * Real.pi)|
  if absAngle > Real.pi then 2 * Real.pi - absAngle else absAngle

/-- Steps 1–5 of `updatePhysics` while flying: rotation, gravity, thrust and
fuel burn, position integration, and horizontal wrap. -/
def integrate (ld : Lander) (dt : ℝ)
    (thrustInput leftInput rightInput : Bool) : Lander :=
  let angle1 := if leftInput then ld.angle - ROTATION_SPEED * dt else ld.angle
  let angle := if rightInput then angle1 + ROTATION_SPEED * dt else angle1
  let vy1 := ld.vel.y - LUNAR_GRAVITY * dt
  let thrusting := thrustInput && decide (ld.fuel > 0)
  let vel : Vec2 :=
    if thrusting then
      ⟨ld.vel.x + (-Real.sin angle * THRUST_POWER) * dt,
       vy1 + (Real.cos angle * THRUST_POWER) * dt⟩
    else ⟨ld.vel.x, vy1⟩
  let fuel := if thrusting then max (ld.fuel - FUEL_BURN_RATE * dt) 0 else ld.fuel
  let px1 := ld.pos.x + vel.x * dt
  let py := ld.pos.y + vel.y * dt
  let px2 := if px1 < 0 then px1 + WORLD_WIDTH else px1
  let px := if px2 > WORLD_WIDTH then px2 - WORLD_WIDTH else px2
  { pos := ⟨px, py⟩, vel := vel, angle := angle, fuel := fuel,
    thrusting := thrusting, state := ld.state }

/-- `updatePhysics`: no-op unless flying; otherwise integrate, then check
ground contact against the interpolated terrain height and classify the
landing. Key inputs are passed as booleans. -/
def updatePhysics (s : SimApp) (dt : ℝ)
    (thrustInput leftInput rightInput : Bool) : SimApp :=
  if s.lander.state ≠ SimState.Flying then s
  else
    let ld := integrate s.lander dt thrustInput leftInput rightInput
    let terrainH := getTerrainHeight s.terrainPoints ld.pos.x
    if ld.pos.y - 0.5 ≤ terrainH then
      let speed := Real.sqrt (ld.vel.x ^ 2 + ld.vel.y ^ 2)
      let absAngle := tiltOf ld.angle
      let padLeft := s.landingPadX - LANDING_PAD_WIDTH / 2
      let padRight := s.landingPadX + LANDING_PAD_WIDTH / 2
      let onPad := padLeft ≤ ld.pos.x ∧ ld.pos.x ≤ padRight
      if speed < SAFE_LANDING_VEL ∧ absAngle < SAFE_LANDING_ANGLE ∧ onPad then
        { s with lander := { ld with pos := ⟨ld.pos.x, terrainH + 0.5⟩,
                                     vel := ⟨0, 0⟩, state := SimState.Landed } }
      else
        { s with lander := { ld with pos := ⟨ld.pos.x, terrainH + 0.5⟩,
                                     vel := ⟨0, 0⟩, state := SimState.Crashed } }
    else
      { s with lander := ld }

/-- The states reachable by the orchestrator: an initialized app (terrain
generated from a pad center drawn in `[8, WORLD_WIDTH - 8]`, lander reset),
closed under physics ticks with `0 ≤ dt ≤ 0.05` (the main loop's clamp)
and under resets. -/
inductive Reachable : SimApp → Prop where
  | init (padX : ℝ) (stars : List StarVertex)
      (h8 : 8 ≤ padX) (h32 : padX ≤ WORLD_WIDTH - 8) :
      Reachable ⟨landerDefault, generateTerrain padX, padX, stars⟩
  | step (s : SimApp) (dt : ℝ) (t l r : Bool) (hs : Reachable s)
      (h0 : 0 ≤ dt) (h1 : dt ≤ 0.05) :
      Reachable (updatePhysics s dt t l r)
  | reset (s : SimApp) (hs : Reachable s) : Reachable (resetLander s)

-- ======================================================================
-- Helper lemmas
-- ======================================================================

lemma truncInt_neg (r : ℝ) : truncInt (-r) = -truncInt r := by
  unfold truncInt
  rcases lt_trichotomy r 0 with h | h | h
  · rw [if_pos (by linarith), if_neg (by linarith), Int.floor_neg]
  · simp [h]
  · rw [if_neg (by linarith), if_pos (by linarith), Int.ceil_neg]

lemma fmodR_neg (a b : ℝ) : fmodR (-a) b = -fmodR a b := by
  unfold fmodR
  rw [neg_div, truncInt_neg]
  push_cast
  ring

lemma fmodR_nonneg_of_nonneg (a b : ℝ) (hb : 0 < b) (ha : 0 ≤ a) :
    0 ≤ fmodR a b ∧ fmodR a b < b := by
  have hq : 0 ≤ a / b := div_nonneg ha hb.le
  unfold fmodR truncInt
  rw [if_pos hq]
  constructor
  · have h1 : (⌊a / b⌋ : ℝ) ≤ a / b := Int.floor_le _
    have h2 : b * (⌊a / b⌋ : ℝ) ≤ b * (a / b) := by
      exact mul_le_mul_of_nonneg_left h1 hb.le
    rw [mul_div_cancel₀ a hb.ne'] at h2
    linarith
  · have h1 : a / b < (⌊a / b⌋ : ℝ) + 1 := Int.lt_floor_add_one _
    have h2 : b * (a / b) < b * ((⌊a / b⌋ : ℝ) + 1) := by
      exact mul_lt_mul_of_pos_left h1 hb
    rw [mul_div_cancel₀ a hb.ne'] at h2
    nlinarith

lemma abs_fmodR_lt (a b : ℝ) (hb : 0 < b) : |fmodR a b| < b := by
  rcases le_or_lt 0 a with ha | ha
  · obtain ⟨h0, h1⟩ := fmodR_nonneg_of_nonneg a b hb ha
    rw [abs_of_nonneg h0]; exact h1
  · obtain ⟨h0, h1⟩ := fmodR_nonneg_of_nonneg (-a) b hb (by linarith)
    rw [fmodR_neg] at h0 h1
    rw [abs_lt]; constructor <;> linarith

-- ======================================================================
-- C2: terminal states are frozen
-- ======================================================================

/-- C2: once the lander is `Landed` or `Crashed`, `updatePhysics` leaves the
whole application state (lander fields, terrain, pad, stars) unchanged for
every `dt` and every input combination. -/
theorem updatePhysics_terminal_frozen (s : SimApp) (dt : ℝ) (t l r : Bool)
    (h : s.lander.state = SimState.Landed ∨ s.lander.state = SimState.Crashed) :
    updatePhysics s dt t l r = s := by
  rcases h with h | h <;> simp [updatePhysics, h]

/-- Witness for C2 at a concrete landed state. -/
theorem updatePhysics_terminal_frozen_witness :
    updatePhysics ⟨{ landerDefault with state := SimState.Landed }, [], 20, []⟩
        1 true true false
      = ⟨{ landerDefault with state := SimState.Landed }, [], 20, []⟩ :=
  updatePhysics_terminal_frozen _ 1 true true false (Or.inl rfl)

-- ======================================================================
-- C7: reset restores the initial pose
-- ======================================================================

/-- C7: `resetLander`, from any state, restores position to the world
center, zero velocity, angle 0, full fuel (100), thrusting off, and
mode `Flying`. -/
theorem resetLander_restores (s : SimApp) :
    (resetLander s).lander.pos = ⟨WORLD_WIDTH / 2, WORLD_HEIGHT / 2⟩ ∧
    (resetLander s).lander.vel = ⟨0, 0⟩ ∧
    (resetLander s).lander.angle = 0 ∧
    (resetLander s).lander.fuel = 100 ∧
    (resetLander s).lander.thrusting = false ∧
    (resetLander s).lander.state = SimState.Flying :=
  ⟨rfl, rfl, rfl, rfl, rfl, rfl⟩

-- ======================================================================
-- C3: tilt normalization
-- ======================================================================

/-- C3: the tilt computed at ground contact lies in `[0, π]`, is invariant
under sign flips and full turns of the raw angle, and is not merely the
absolute value of the raw angle. -/
theorem tilt_normalization_ok :
    (∀ a : ℝ, 0 ≤ tiltOf a ∧ tiltOf a ≤ Real.pi) ∧
    (∀ a : ℝ, tiltOf (-a) = tiltOf a) ∧
    (∀ a : ℝ, tiltOf (a + 2 * Real.pi) = tiltOf a) ∧
    (∃ a : ℝ, tiltOf a ≠ |a|) := by
  have hpi := Real.pi_pos
  have h2pi : (0 : ℝ) < 2 * Real.pi := by linarith
  refine ⟨?_, ?_, ?_, ?_⟩
  · intro a
    have hlt := abs_fmodR_lt a (2 * Real.pi) h2pi
    have hge : 0 ≤ |fmodR a (2 * Real.pi)| := abs_nonneg _
    simp only [tiltOf]
    split_ifs with h
    · constructor <;> linarith
    · constructor
      · exact hge
      · linarith [not_lt.mp h]
  · intro a
    simp only [tiltOf, fmodR_neg, abs_neg]
  · intro a
    have hfe : fmodR (a + 2 * Real.pi) (2 * Real.pi)
        = (a + 2 * Real.pi) - 2 * Real.pi * truncInt (a / (2 * Real.pi) + 1) := by
      unfold fmodR
      rw [add_div, div_self h2pi.ne']
    set q := a / (2 * Real.pi) with hq
    have haq : a = q * (2 * Real.pi) := by
      rw [hq, div_mul_cancel₀ a h2pi.ne']
    rcases le_or_lt 0 q with hq0 | hq0
    · -- q ≥ 0: truncation commutes with +1, fmod is unchanged
      have ht1 : truncInt (q + 1) = truncInt q + 1 := by
        unfold truncInt
        rw [if_pos hq0, if_pos (by linarith), Int.floor_add_one]
      have : fmodR (a + 2 * Real.pi) (2 * Real.pi) = fmodR a (2 * Real.pi) := by
        rw [hfe, ht1]
        unfold fmodR
        push_cast
        ring
      simp only [tiltOf, this]
    · rcases le_or_lt (q + 1) 0 with hq1 | hq1
      · -- q + 1 ≤ 0: both truncations are ceilings, fmod unchanged
        have ht1 : truncInt (q + 1) = truncInt q + 1 := by
          unfold truncInt
          rcases eq_or_lt_of_le hq1 with he | hl
          · have hqm : q = -1 := by linarith
            rw [if_pos (by linarith), if_neg (by linarith), hqm]
            rw [show ((-1 : ℝ)) = ((-1 : ℤ) : ℝ) by norm_num]
            rw [Int.ceil_intCast]
            norm_num
          · rw [if_neg (by linarith), if_neg (by linarith), Int.ceil_add_one]
        have : fmodR (a + 2 * Real.pi) (2 * Real.pi) = fmodR a (2 * Real.pi) := by
          rw [hfe, ht1]
          unfold fmodR
          push_cast
          ring
        simp only [tiltOf, this]
      · -- -1 < q < 0: fmod a = a and fmod (a + 2π) = a + 2π
        have ha0 : a < 0 := by nlinarith
        have hagt : -(2 * Real.pi) < a := by nlinarith
        have ht0 : truncInt q = 0 := by
          unfold truncInt
          rw [if_neg (by linarith)]
          exact Int.ceil_eq_zero_iff.mpr ⟨by linarith, by linarith⟩
        have ht1 : truncInt (q + 1) = 0 := by
          unfold truncInt
          rw [if_pos (by linarith)]
          rw [Int.floor_eq_zero_iff]
          exact Set.mem_Ico.mpr ⟨by linarith, by linarith⟩
        have hfa : fmodR a (2 * Real.pi) = a := by
          unfold fmodR
          rw [← hq, ht0]
          push_cast
          ring
        have hfb : fmodR (a + 2 * Real.pi) (2 * Real.pi) = a + 2 * Real.pi := by
          rw [hfe, ht1]
          push_cast
          ring
        simp only [tiltOf, hfa, hfb]
        rw [abs_of_neg ha0, abs_of_pos (by linarith)]
        rcases lt_trichotomy a (-Real.pi) with hc | hc | hc
        · rw [if_neg (by push_neg; linarith), if_pos (by linarith)]
          ring
        · rw [if_neg (by push_neg; linarith), if_neg (by push_neg; linarith)]
          linarith
        · rw [if_pos (by linarith), if_neg (by push_neg; linarith)]
          ring
  · refine ⟨2 * Real.pi, ?_⟩
    have hfa : fmodR (2 * Real.pi) (2 * Real.pi) = 0 := by
      unfold fmodR truncInt
      rw [div_self h2pi.ne']
      rw [if_pos (by norm_num)]
      simp
    simp only [tiltOf, hfa, abs_zero]
    rw [if_neg (by push_neg; exact hpi.le)]
    rw [abs_of_pos h2pi]
    linarith

-- ======================================================================
-- C1: landing classification at ground contact
-- ======================================================================

lemma tiltOf_zero : tiltOf 0 = 0 := by
  have h : fmodR 0 (2 * Real.pi) = 0 := by
    unfold fmodR truncInt
    rw [zero_div, if_pos le_rfl]
    simp
  simp only [tiltOf, h, abs_zero]
  rw [if_neg (by push_neg; exact Real.pi_pos.le)]

/-- C1: when a tick from `Flying` brings the ship into ground contact, the
mode becomes `Landed` iff speed < `SAFE_LANDING_VEL`, tilt <
`SAFE_LANDING_ANGLE`, and the ship is horizontally within the pad;
otherwise it becomes `Crashed`; in either case velocity is zeroed and
`pos.y` is snapped to terrain height + 0.5. -/
theorem contact_classification (s : SimApp) (dt : ℝ) (t l r : Bool)
    (ld : Lander) (H : ℝ)
    (hld : ld = integrate s.lander dt t l r)
    (hH : H = getTerrainHeight s.terrainPoints ld.pos.x)
    (hfly : s.lander.state = SimState.Flying)
    (hcontact : ld.pos.y - 0.5 ≤ H) :
    ((updatePhysics s dt t l r).lander.state = SimState.Landed ↔
      (Real.sqrt (ld.vel.x ^ 2 + ld.vel.y ^ 2) < SAFE_LANDING_VEL ∧
       tiltOf ld.angle < SAFE_LANDING_ANGLE ∧
       (s.landingPadX - LANDING_PAD_WIDTH / 2 ≤ ld.pos.x ∧
        ld.pos.x ≤ s.landingPadX + LANDING_PAD_WIDTH / 2))) ∧
    ((updatePhysics s dt t l r).lander.state = SimState.Crashed ↔
      ¬(Real.sqrt (ld.vel.x ^ 2 + ld.vel.y ^ 2) < SAFE_LANDING_VEL ∧
        tiltOf ld.angle < SAFE_LANDING_ANGLE ∧
        (s.landingPadX - LANDING_PAD_WIDTH / 2 ≤ ld.pos.x ∧
         ld.pos.x ≤ s.landingPadX + LANDING_PAD_WIDTH / 2))) ∧
    (updatePhysics s dt t l r).lander.vel = ⟨0, 0⟩ ∧
    (updatePhysics s dt t l r).lander.pos.y = H + 0.5 := by
  subst hld
  subst hH
  have hne : ¬(s.lander.state ≠ SimState.Flying) := by simp [hfly]
  simp only [updatePhysics]
  rw [if_neg hne]
  rw [if_pos hcontact]
  by_cases hC :
      Real.sqrt ((integrate s.lander dt t l r).vel.x ^ 2
          + (integrate s.lander dt t l r).vel.y ^ 2) < SAFE_LANDING_VEL ∧
      tiltOf (integrate s.lander dt t l r).angle < SAFE_LANDING_ANGLE ∧
      (s.landingPadX - LANDING_PAD_WIDTH / 2 ≤ (integrate s.lander dt t l r).pos.x ∧
       (integrate s.lander dt t l r).pos.x ≤ s.landingPadX + LANDING_PAD_WIDTH / 2)
  · rw [if_pos hC]
    simp [hC]
  · rw [if_neg hC]
    refine ⟨iff_of_false ?_ hC, iff_of_true rfl hC, rfl, rfl⟩
    intro h
    exact SimState.noConfusion h

/-- A two-sample terrain that is flat at height 2. -/
def flatTerrain : List Vec2 := [⟨0, 2⟩, ⟨0.2, 2⟩]

lemma flatTerrain_h20 : getTerrainHeight flatTerrain 20 = 2 := by
  simp only [getTerrainHeight, flatTerrain]
  norm_num [TERRAIN_SEGMENTS, WORLD_WIDTH, truncInt, clampInt, clampR, mix, List.getD]

/-- A concrete flying state just above a flat-2 two-sample terrain, centered
on the pad, descending slowly and upright. -/
def landingApp : SimApp :=
  { lander := { pos := ⟨20, 2.4⟩, vel := ⟨0, -0.5⟩, angle := 0, fuel := 50,
                thrusting := false, state := SimState.Flying }
    terrainPoints := flatTerrain
    landingPadX := 20
    stars := [] }

lemma landingApp_integrate :
    integrate landingApp.lander 0.1 false false false
      = { pos := ⟨20, 2.3338⟩, vel := ⟨0, -0.662⟩, angle := 0, fuel := 50,
          thrusting := false, state := SimState.Flying } := by
  simp only [integrate, landingApp]
  norm_num [LUNAR_GRAVITY, WORLD_WIDTH]

lemma landingApp_terrainH :
    getTerrainHeight landingApp.terrainPoints 20 = 2 :=
  flatTerrain_h20

/-- Witness for C1: the concrete slow, upright, on-pad contact lands. -/
theorem contact_classification_witness :
    (updatePhysics landingApp 0.1 false false false).lander.state = SimState.Landed ∧
    (updatePhysics landingApp 0.1 false false false).lander.vel = ⟨0, 0⟩ ∧
    (updatePhysics landingApp 0.1 false false false).lander.pos.y = 2 + 0.5 := by
  have hH : (2 : ℝ) = getTerrainHeight landingApp.terrainPoints
      (({ pos := ⟨20, 2.3338⟩, vel := ⟨0, -0.662⟩, angle := 0, fuel := 50,
          thrusting := false, state := SimState.Flying } : Lander)).pos.x :=
    landingApp_terrainH.symm
  obtain ⟨h1, _h2, h3, h4⟩ :=
    contact_classification landingApp 0.1 false false false
      ({ pos := ⟨20, 2.3338⟩, vel := ⟨0, -0.662⟩, angle := 0, fuel := 50,
          thrusting := false, state := SimState.Flying } : Lander) 2
      landingApp_integrate.symm hH rfl (by norm_num)
  have hspeed : Real.sqrt (((0 : ℝ)) ^ 2 + ((-0.662 : ℝ)) ^ 2) < SAFE_LANDING_VEL := by
    rw [show (((0 : ℝ)) ^ 2 + ((-0.662 : ℝ)) ^ 2) = 0.438244 by norm_num]
    rw [show SAFE_LANDING_VEL = 2 from rfl]
    rw [Real.sqrt_lt' (by norm_num)]
    norm_num
  have htilt : tiltOf 0 < SAFE_LANDING_ANGLE := by
    rw [tiltOf_zero]
    norm_num [SAFE_LANDING_ANGLE]
  exact ⟨h1.mpr ⟨hspeed, htilt, by norm_num [landingApp, LANDING_PAD_WIDTH],
    by norm_num [landingApp, LANDING_PAD_WIDTH]⟩, h3, h4⟩

-- ======================================================================
-- C6: free fall matches constant gravity
-- ======================================================================

lemma freefall_step (a : SimApp) (dt : ℝ) (t : Bool)
    (hfly : a.lander.state = SimState.Flying)
    (hfu : t = false ∨ a.lander.fuel = 0)
    (hnext : (updatePhysics a dt t false false).lander.state = SimState.Flying) :
    (updatePhysics a dt t false false).lander.vel.x = a.lander.vel.x ∧
    (updatePhysics a dt t false false).lander.vel.y
        = a.lander.vel.y - LUNAR_GRAVITY * dt ∧
    (updatePhysics a dt t false false).lander.fuel = a.lander.fuel := by
  have hthr : (t && decide (a.lander.fuel > 0)) = false := by
    rcases hfu with h | h
    · simp [h]
    · simp [h]
  have hvel : (integrate a.lander dt t false false).vel
      = ⟨a.lander.vel.x, a.lander.vel.y - LUNAR_GRAVITY * dt⟩ := by
    simp [integrate, hthr]
  have hfuel : (integrate a.lander dt t false false).fuel = a.lander.fuel := by
    simp [integrate, hthr]
  have hne : ¬(a.lander.state ≠ SimState.Flying) := by simp [hfly]
  by_cases hcon : (integrate a.lander dt t false false).pos.y - 0.5
      ≤ getTerrainHeight a.terrainPoints (integrate a.lander dt t false false).pos.x
  · exfalso
    simp only [updatePhysics] at hnext
    rw [if_neg hne, if_pos hcon] at hnext
    by_cases hC :
        Real.sqrt ((integrate a.lander dt t false false).vel.x ^ 2
            + (integrate a.lander dt t false false).vel.y ^ 2) < SAFE_LANDING_VEL ∧
        tiltOf (integrate a.lander dt t false false).angle < SAFE_LANDING_ANGLE ∧
        (a.landingPadX - LANDING_PAD_WIDTH / 2 ≤ (integrate a.lander dt t false false).pos.x ∧
         (integrate a.lander dt t false false).pos.x ≤ a.landingPadX + LANDING_PAD_WIDTH / 2)
    · rw [if_pos hC] at hnext
      exact SimState.noConfusion hnext
    · rw [if_neg hC] at hnext
      exact SimState.noConfusion hnext
  · simp only [updatePhysics]
    rw [if_neg hne, if_neg hcon]
    exact ⟨by rw [hvel], by rw [hvel], hfuel⟩

lemma freefall_iterate (s : SimApp) (dt : ℝ) (t : Bool) (N : ℕ)
    (hfu : t = false ∨ s.lander.fuel = 0)
    (hnc : ∀ k : ℕ, k ≤ N →
      ((fun a => updatePhysics a dt t false false)^[k] s).lander.state
        = SimState.Flying) :
    ((fun a => updatePhysics a dt t false false)^[N] s).lander.vel.x
        = s.lander.vel.x ∧
    ((fun a => updatePhysics a dt t false false)^[N] s).lander.vel.y
        = s.lander.vel.y - LUNAR_GRAVITY * N * dt ∧
    ((fun a => updatePhysics a dt t false false)^[N] s).lander.fuel
        = s.lander.fuel := by
  induction N with
  | zero => simp
  | succ n ih =>
    obtain ⟨ihx, ihy, ihf⟩ := ih (fun k hk => hnc k (le_trans hk (Nat.le_succ n)))
    have hflyn := hnc n (Nat.le_succ n)
    have hfun : t = false ∨
        ((fun a => updatePhysics a dt t false false)^[n] s).lander.fuel = 0 := by
      rcases hfu with h | h
      · exact Or.inl h
      · exact Or.inr (by rw [ihf]; exact h)
    have hnext := hnc (n + 1) le_rfl
    rw [Function.iterate_succ_apply'] at hnext ⊢
    obtain ⟨h1, h2, h3⟩ := freefall_step _ dt t hflyn hfun hnext
    refine ⟨by rw [h1, ihx], ?_, by rw [h3, ihf]⟩
    rw [h2, ihy]
    push_cast
    ring

/-- C6: from a flying state with zero velocity, with no rotation input and
either no thrust input or an empty tank, `N` ticks of fixed `dt` that never
reach ground contact leave `vel.x = 0` and give exactly
`vel.y = -(LUNAR_GRAVITY * N * dt)`. -/
theorem freefall_matches_gravity (s : SimApp) (dt : ℝ) (t : Bool) (N : ℕ)
    (hvel : s.lander.vel = ⟨0, 0⟩)
    (hfu : t = false ∨ s.lander.fuel = 0)
    (hnc : ∀ k : ℕ, k ≤ N →
      ((fun a => updatePhysics a dt t false false)^[k] s).lander.state
        = SimState.Flying) :
    ((fun a => updatePhysics a dt t false false)^[N] s).lander.vel.y
        = -(LUNAR_GRAVITY * N * dt) ∧
    ((fun a => updatePhysics a dt t false false)^[N] s).lander.vel.x = 0 := by
  obtain ⟨h1, h2, _⟩ := freefall_iterate s dt t N hfu hnc
  rw [h1, h2, hvel]
  exact ⟨by ring, rfl⟩

/-- A concrete flying state high above the flat-2 terrain, at rest. -/
def freefallApp : SimApp :=
  { lander := { pos := ⟨20, 15⟩, vel := ⟨0, 0⟩, angle := 0, fuel := 100,
                thrusting := false, state := SimState.Flying }
    terrainPoints := flatTerrain
    landingPadX := 20
    stars := [] }

/-- `freefallApp` after one 0.01s tick. -/
def freefallApp1 : SimApp :=
  { lander := { pos := ⟨20, 14.999838⟩, vel := ⟨0, -0.0162⟩, angle := 0, fuel := 100,
                thrusting := false, state := SimState.Flying }
    terrainPoints := flatTerrain
    landingPadX := 20
    stars := [] }

/-- `freefallApp` after two 0.01s ticks. -/
def freefallApp2 : SimApp :=
  { lander := { pos := ⟨20, 14.999514⟩, vel := ⟨0, -0.0324⟩, angle := 0, fuel := 100,
                thrusting := false, state := SimState.Flying }
    terrainPoints := flatTerrain
    landingPadX := 20
    stars := [] }

lemma freefall_tick1 :
    updatePhysics freefallApp 0.01 false false false = freefallApp1 := by
  have hint : integrate freefallApp.lander 0.01 false false false
      = freefallApp1.lander := by
    simp only [integrate, freefallApp, freefallApp1]
    norm_num [LUNAR_GRAVITY, WORLD_WIDTH]
  simp only [updatePhysics]
  rw [if_neg (by simp [freefallApp])]
  rw [hint]
  norm_num [freefallApp, freefallApp1, flatTerrain_h20]

lemma freefall_tick2 :
    updatePhysics freefallApp1 0.01 false false false = freefallApp2 := by
  have hint : integrate freefallApp1.lander 0.01 false false false
      = freefallApp2.lander := by
    simp only [integrate, freefallApp1, freefallApp2]
    norm_num [LUNAR_GRAVITY, WORLD_WIDTH]
  simp only [updatePhysics]
  rw [if_neg (by simp [freefallApp1])]
  rw [hint]
  norm_num [freefallApp1, freefallApp2, flatTerrain_h20]

/-- Witness for C6: two 0.01s ticks of free fall from rest give
`vel.y = -0.0324 = -(1.62 * 2 * 0.01)`. -/
theorem freefall_matches_gravity_witness :
    ((fun a => updatePhysics a 0.01 false false false)^[2] freefallApp).lander.vel.y
        = -(LUNAR_GRAVITY * (2 : ℕ) * 0.01) ∧
    ((fun a => updatePhysics a 0.01 false false false)^[2] freefallApp).lander.vel.x
        = 0 := by
  refine freefall_matches_gravity freefallApp 0.01 false 2 rfl (Or.inl rfl) ?_
  intro k hk
  interval_cases k
  · rfl
  · rw [Function.iterate_one, freefall_tick1]
    rfl
  · show (updatePhysics (updatePhysics freefallApp 0.01 false false false)
        0.01 false false false).lander.state = SimState.Flying
    rw [freefall_tick1, freefall_tick2]
    rfl

-- ======================================================================
-- Terrain lemmas shared by C4, C9, C10
-- ======================================================================

lemma clampInt_bounds (v lo hi : ℤ) (h : lo ≤ hi) :
    lo ≤ clampInt v lo hi ∧ clampInt v lo hi ≤ hi := by
  unfold clampInt
  split_ifs <;> omega

lemma clampR_bounds (v lo hi : ℝ) (h : lo ≤ hi) :
    lo ≤ clampR v lo hi ∧ clampR v lo hi ≤ hi := by
  unfold clampR
  split_ifs <;> constructor <;> linarith

lemma mix_bounds (a b t : ℝ) (h0 : 0 ≤ t) (h1 : t ≤ 1) :
    min a b ≤ mix a b t ∧ mix a b t ≤ max a b := by
  unfold mix
  rcases le_total a b with h | h
  · rw [min_eq_left h, max_eq_right h]
    constructor <;> nlinarith
  · rw [min_eq_right h, max_eq_left h]
    constructor <;> nlinarith

lemma generateTerrain_length (padX : ℝ) : (generateTerrain padX).length = 201 := by
  unfold generateTerrain
  rw [List.length_map, List.length_range, TERRAIN_SEGMENTS]

lemma generateTerrain_ne_nil (padX : ℝ) : (generateTerrain padX).isEmpty = false := by
  rw [List.isEmpty_eq_false_iff_exists_mem]
  have h := generateTerrain_length padX
  rcases hx : generateTerrain padX with _ | ⟨a, l⟩
  · rw [hx] at h
    simp at h
  · exact ⟨a, List.mem_cons_self a l⟩

lemma generateTerrain_getD (padX : ℝ) (i : ℕ) (hi : i < 201) :
    (generateTerrain padX).getD i default
      = ⟨(i : ℝ) * (WORLD_WIDTH / (TERRAIN_SEGMENTS : ℝ)),
         terrainHeightAt padX ((i : ℝ) * (WORLD_WIDTH / (TERRAIN_SEGMENTS : ℝ)))⟩ := by
  unfold generateTerrain
  rw [List.getD_eq_getElem?_getD, List.getElem?_map,
    List.getElem?_range (show i < TERRAIN_SEGMENTS + 1 from hi),
    Option.map_some', Option.getD_some]

lemma terrainHeightAt_pad (p x : ℝ)
    (h1 : p - LANDING_PAD_WIDTH / 2 ≤ x) (h2 : x ≤ p + LANDING_PAD_WIDTH / 2) :
    terrainHeightAt p x = 2 := by
  simp only [terrainHeightAt]
  rw [if_pos ⟨h1, h2⟩]

-- ======================================================================
-- C9: linear interpolation never overshoots the neighboring samples
-- ======================================================================

/-- C9: for `x` in `[0, WORLD_WIDTH]` and any generated terrain, the
interpolated height lies between the two samples selected by the clamped
index. -/
theorem interpolation_no_overshoot (padX x : ℝ) (idx : ℤ) (p0 p1 : Vec2)
    (hx0 : 0 ≤ x) (hx1 : x ≤ WORLD_WIDTH)
    (hidx : idx = clampInt (truncInt (x / (WORLD_WIDTH / (TERRAIN_SEGMENTS : ℝ)))) 0
        (((generateTerrain padX).length : ℤ) - 2))
    (hp0 : p0 = (generateTerrain padX).getD idx.toNat default)
    (hp1 : p1 = (generateTerrain padX).getD (idx.toNat + 1) default) :
    min p0.y p1.y ≤ getTerrainHeight (generateTerrain padX) x ∧
    getTerrainHeight (generateTerrain padX) x ≤ max p0.y p1.y := by
  subst hidx
  subst hp0
  subst hp1
  simp only [getTerrainHeight]
  rw [if_neg (by rw [generateTerrain_ne_nil]; exact Bool.false_ne_true)]
  exact mix_bounds _ _ _ (clampR_bounds _ 0 1 (by norm_num)).1
    (clampR_bounds _ 0 1 (by norm_num)).2

/-- Witness for C9 at pad center `x = 20` of the terrain generated around
`padX = 20`, where both neighboring samples sit at height 2. -/
theorem interpolation_no_overshoot_witness :
    2 ≤ getTerrainHeight (generateTerrain 20) 20 ∧
    getTerrainHeight (generateTerrain 20) 20 ≤ 2 := by
  have hidx : (100 : ℤ)
      = clampInt (truncInt ((20 : ℝ) / (WORLD_WIDTH / (TERRAIN_SEGMENTS : ℝ)))) 0
        (((generateTerrain 20).length : ℤ) - 2) := by
    rw [generateTerrain_length]
    norm_num [WORLD_WIDTH, TERRAIN_SEGMENTS, truncInt, clampInt]
  have hp0 : (⟨20, 2⟩ : Vec2) = (generateTerrain 20).getD ((100 : ℤ)).toNat default := by
    rw [show ((100 : ℤ)).toNat = 100 from rfl,
      generateTerrain_getD 20 100 (by norm_num)]
    rw [show ((100 : ℕ) : ℝ) * (WORLD_WIDTH / (TERRAIN_SEGMENTS : ℝ)) = 20 by
      norm_num [WORLD_WIDTH, TERRAIN_SEGMENTS]]
    rw [terrainHeightAt_pad 20 20 (by norm_num [LANDING_PAD_WIDTH])
      (by norm_num [LANDING_PAD_WIDTH])]
  have hp1 : (⟨20.2, 2⟩ : Vec2)
      = (generateTerrain 20).getD (((100 : ℤ)).toNat + 1) default := by
    rw [show ((100 : ℤ)).toNat + 1 = 101 from rfl,
      generateTerrain_getD 20 101 (by norm_num)]
    rw [show ((101 : ℕ) : ℝ) * (WORLD_WIDTH / (TERRAIN_SEGMENTS : ℝ)) = 20.2 by
      norm_num [WORLD_WIDTH, TERRAIN_SEGMENTS]]
    rw [terrainHeightAt_pad 20 20.2 (by norm_num [LANDING_PAD_WIDTH])
      (by norm_num [LANDING_PAD_WIDTH])]
  obtain ⟨h1, h2⟩ := interpolation_no_overshoot 20 20 100 ⟨20, 2⟩ ⟨20.2, 2⟩
    (by norm_num) (by norm_num [WORLD_WIDTH]) hidx hp0 hp1
  constructor
  · simpa using h1
  · simpa using h2

-- ======================================================================
-- C10: getTerrainHeight is total and in-bounds for every real x
-- ======================================================================

/-- C10: on the empty list the lookup returns 0; on any list with at least
two samples the clamped index lies in `[0, length - 2]`, both accesses are
in bounds, and the interpolation parameter is clamped into `[0, 1]`, for
every real `x`; and every generated terrain has 201 samples. -/
theorem getTerrainHeight_total_inbounds :
    (∀ x : ℝ, getTerrainHeight [] x = 0) ∧
    (∀ (terrain : List Vec2) (x : ℝ), 2 ≤ terrain.length →
      0 ≤ clampInt (truncInt (x / (WORLD_WIDTH / (TERRAIN_SEGMENTS : ℝ)))) 0
            ((terrain.length : ℤ) - 2) ∧
      clampInt (truncInt (x / (WORLD_WIDTH / (TERRAIN_SEGMENTS : ℝ)))) 0
            ((terrain.length : ℤ) - 2) ≤ (terrain.length : ℤ) - 2 ∧
      (clampInt (truncInt (x / (WORLD_WIDTH / (TERRAIN_SEGMENTS : ℝ)))) 0
            ((terrain.length : ℤ) - 2)).toNat < terrain.length ∧
      (clampInt (truncInt (x / (WORLD_WIDTH / (TERRAIN_SEGMENTS : ℝ)))) 0
            ((terrain.length : ℤ) - 2)).toNat + 1 < terrain.length ∧
      0 ≤ clampR ((x - (terrain.getD (clampInt (truncInt
              (x / (WORLD_WIDTH / (TERRAIN_SEGMENTS : ℝ)))) 0
              ((terrain.length : ℤ) - 2)).toNat default).x)
            / (WORLD_WIDTH / (TERRAIN_SEGMENTS : ℝ))) 0 1 ∧
      clampR ((x - (terrain.getD (clampInt (truncInt
              (x / (WORLD_WIDTH / (TERRAIN_SEGMENTS : ℝ)))) 0
              ((terrain.length : ℤ) - 2)).toNat default).x)
            / (WORLD_WIDTH / (TERRAIN_SEGMENTS : ℝ))) 0 1 ≤ 1) ∧
    (∀ padX : ℝ, (generateTerrain padX).length = 201) := by
  refine ⟨fun x => rfl, ?_, generateTerrain_length⟩
  intro terrain x hlen
  have hlo : (0 : ℤ) ≤ (terrain.length : ℤ) - 2 := by
    omega
  obtain ⟨hb1, hb2⟩ := clampInt_bounds
    (truncInt (x / (WORLD_WIDTH / (TERRAIN_SEGMENTS : ℝ)))) 0
    ((terrain.length : ℤ) - 2) hlo
  obtain ⟨hc1, hc2⟩ := clampR_bounds ((x - (terrain.getD (clampInt (truncInt
      (x / (WORLD_WIDTH / (TERRAIN_SEGMENTS : ℝ)))) 0
      ((terrain.length : ℤ) - 2)).toNat default).x)
      / (WORLD_WIDTH / (TERRAIN_SEGMENTS : ℝ))) 0 1 (by norm_num)
  refine ⟨hb1, hb2, by omega, by omega, hc1, hc2⟩

/-- Witness for C10: the empty case at `x = 5`, the in-bounds case on a
two-sample list at `x = -7`, and the generated-length case at pad 20. -/
theorem getTerrainHeight_total_inbounds_witness :
    getTerrainHeight [] 5 = 0 ∧
    ((clampInt (truncInt ((-7 : ℝ) / (WORLD_WIDTH / (TERRAIN_SEGMENTS : ℝ)))) 0
        ((([(⟨0, 2⟩ : Vec2), ⟨0.2, 3⟩] : List Vec2).length : ℤ) - 2)).toNat + 1
      < ([(⟨0, 2⟩ : Vec2), ⟨0.2, 3⟩] : List Vec2).length) ∧
    (generateTerrain 20).length = 201 := by
  refine ⟨getTerrainHeight_total_inbounds.1 5, ?_,
    getTerrainHeight_total_inbounds.2.2 20⟩
  exact (getTerrainHeight_total_inbounds.2.1
    [⟨0, 2⟩, ⟨0.2, 3⟩] (-7) (by norm_num)).2.2.2.1

-- ======================================================================
-- Reachability invariant shared by C5 and C8
-- ======================================================================

/-- Inductive invariant: fuel in `[0, 100]`, horizontal speed bounded in
terms of burned fuel, and horizontal position inside the world. -/
def GoodState (s : SimApp) : Prop :=
  0 ≤ s.lander.fuel ∧ s.lander.fuel ≤ 100 ∧
  (0 < s.lander.fuel → |s.lander.vel.x| ≤ (100 - s.lander.fuel) / 2) ∧
  (s.lander.fuel = 0 → |s.lander.vel.x| ≤ 50.2) ∧
  0 ≤ s.lander.pos.x ∧ s.lander.pos.x ≤ WORLD_WIDTH

lemma wrap_bounds (px1 : ℝ) (hlo : -WORLD_WIDTH ≤ px1) (hhi : px1 ≤ 2 * WORLD_WIDTH) :
    0 ≤ (if (if px1 < 0 then px1 + WORLD_WIDTH else px1) > WORLD_WIDTH
         then (if px1 < 0 then px1 + WORLD_WIDTH else px1) - WORLD_WIDTH
         else (if px1 < 0 then px1 + WORLD_WIDTH else px1)) ∧
    (if (if px1 < 0 then px1 + WORLD_WIDTH else px1) > WORLD_WIDTH
     then (if px1 < 0 then px1 + WORLD_WIDTH else px1) - WORLD_WIDTH
     else (if px1 < 0 then px1 + WORLD_WIDTH else px1)) ≤ WORLD_WIDTH := by
  unfold WORLD_WIDTH at *
  split_ifs <;> constructor <;> linarith

lemma integrate_good (ld : Lander) (dt : ℝ) (t l r : Bool)
    (h0 : 0 ≤ dt) (h1 : dt ≤ 0.05)
    (hf0 : 0 ≤ ld.fuel) (hf1 : ld.fuel ≤ 100)
    (hvx : 0 < ld.fuel → |ld.vel.x| ≤ (100 - ld.fuel) / 2)
    (hvx0 : ld.fuel = 0 → |ld.vel.x| ≤ 50.2)
    (hx0 : 0 ≤ ld.pos.x) (hx1 : ld.pos.x ≤ WORLD_WIDTH) :
    0 ≤ (integrate ld dt t l r).fuel ∧
    (integrate ld dt t l r).fuel ≤ 100 ∧
    (0 < (integrate ld dt t l r).fuel →
      |(integrate ld dt t l r).vel.x| ≤ (100 - (integrate ld dt t l r).fuel) / 2) ∧
    ((integrate ld dt t l r).fuel = 0 → |(integrate ld dt t l r).vel.x| ≤ 50.2) ∧
    0 ≤ (integrate ld dt t l r).pos.x ∧
    (integrate ld dt t l r).pos.x ≤ WORLD_WIDTH := by
  simp only [integrate]
  cases ht : (t && decide (ld.fuel > 0)) with
  | false =>
    simp only [ht, Bool.false_eq_true, if_false]
    have hvx52 : |ld.vel.x| ≤ 50.2 := by
      rcases eq_or_lt_of_le hf0 with he | hl
      · exact hvx0 he.symm
      · calc |ld.vel.x| ≤ (100 - ld.fuel) / 2 := hvx hl
          _ ≤ 50.2 := by linarith
    have habs := abs_le.mp hvx52
    refine ⟨hf0, hf1, hvx, hvx0, ?_⟩
    exact wrap_bounds (ld.pos.x + ld.vel.x * dt)
      (by unfold WORLD_WIDTH at *; nlinarith [habs.1, habs.2])
      (by unfold WORLD_WIDTH at *; nlinarith [habs.1, habs.2])
  | true =>
    have hfpos : 0 < ld.fuel := by
      simp only [Bool.and_eq_true, decide_eq_true_eq] at ht
      exact ht.2
    have hvxb := abs_le.mp (hvx hfpos)
    have hsin1 : -1 ≤ Real.sin (if r then (if l then ld.angle - ROTATION_SPEED * dt
        else ld.angle) + ROTATION_SPEED * dt
        else (if l then ld.angle - ROTATION_SPEED * dt else ld.angle)) :=
      Real.neg_one_le_sin _
    have hsin2 : Real.sin (if r then (if l then ld.angle - ROTATION_SPEED * dt
        else ld.angle) + ROTATION_SPEED * dt
        else (if l then ld.angle - ROTATION_SPEED * dt else ld.angle)) ≤ 1 :=
      Real.sin_le_one _
    simp only [ht, if_true]
    set sa := Real.sin (if r then (if l then ld.angle - ROTATION_SPEED * dt
        else ld.angle) + ROTATION_SPEED * dt
        else (if l then ld.angle - ROTATION_SPEED * dt else ld.angle)) with hsa
    have hvx' : |ld.vel.x + -sa * THRUST_POWER * dt|
        ≤ (100 - ld.fuel) / 2 + 4 * dt := by
      rw [abs_le]
      unfold THRUST_POWER
      constructor <;> nlinarith
    refine ⟨le_max_right _ _, ?_, ?_, ?_, ?_⟩
    · apply max_le (by unfold FUEL_BURN_RATE; nlinarith) (by norm_num)
    · intro hpos
      have hne : max (ld.fuel - FUEL_BURN_RATE * dt) 0 = ld.fuel - FUEL_BURN_RATE * dt := by
        rcases max_cases (ld.fuel - FUEL_BURN_RATE * dt) 0 with ⟨he, _⟩ | ⟨he, _⟩
        · exact he
        · rw [he] at hpos; exact absurd hpos (lt_irrefl 0)
      rw [hne] at hpos ⊢
      rw [abs_le] at *
      unfold FUEL_BURN_RATE THRUST_POWER at *
      constructor <;> nlinarith [hvx'.1, hvx'.2]
    · intro _
      have habs := abs_le.mp hvx'
      rw [abs_le]
      constructor <;> nlinarith [habs.1, habs.2]
    · have habs := abs_le.mp hvx'
      refine wrap_bounds (ld.pos.x + (ld.vel.x + -sa * THRUST_POWER * dt) * dt) ?_ ?_
      · unfold WORLD_WIDTH THRUST_POWER at *
        nlinarith [habs.1, habs.2]
      · unfold WORLD_WIDTH THRUST_POWER at *
        nlinarith [habs.1, habs.2]

lemma updatePhysics_good (s : SimApp) (dt : ℝ) (t l r : Bool)
    (h0 : 0 ≤ dt) (h1 : dt ≤ 0.05) (hg : GoodState s) :
    GoodState (updatePhysics s dt t l r) := by
  obtain ⟨hf0, hf1, hvx, hvx0, hx0, hx1⟩ := hg
  by_cases hfly : s.lander.state = SimState.Flying
  · obtain ⟨gf0, gf1, gvx, gvx0, gx0, gx1⟩ :=
      integrate_good s.lander dt t l r h0 h1 hf0 hf1 hvx hvx0 hx0 hx1
    simp only [updatePhysics]
    rw [if_neg (by simp [hfly])]
    by_cases hcon : (integrate s.lander dt t l r).pos.y - 0.5
        ≤ getTerrainHeight s.terrainPoints (integrate s.lander dt t l r).pos.x
    · rw [if_pos hcon]
      have hzero1 : (0 : ℝ) ≤ (100 - (integrate s.lander dt t l r).fuel) / 2 := by
        linarith
      split_ifs with hC
      · exact ⟨gf0, gf1, fun _ => by simpa using hzero1, fun _ => by norm_num,
          gx0, gx1⟩
      · exact ⟨gf0, gf1, fun _ => by simpa using hzero1, fun _ => by norm_num,
          gx0, gx1⟩
    · rw [if_neg hcon]
      exact ⟨gf0, gf1, gvx, gvx0, gx0, gx1⟩
  · simp only [updatePhysics]
    rw [if_pos hfly]
    exact ⟨hf0, hf1, hvx, hvx0, hx0, hx1⟩

lemma goodState_default (terrain : List Vec2) (padX : ℝ) (stars : List StarVertex) :
    GoodState ⟨landerDefault, terrain, padX, stars⟩ := by
  refine ⟨by norm_num [landerDefault], by norm_num [landerDefault],
    fun _ => by norm_num [landerDefault], fun h => ?_, ?_, ?_⟩
  · exfalso
    have : (100 : ℝ) = 0 := h
    norm_num at this
  · norm_num [landerDefault, WORLD_WIDTH]
  · norm_num [landerDefault, WORLD_WIDTH]

lemma reachable_good (s : SimApp) (h : Reachable s) : GoodState s := by
  induction h with
  | init padX stars h8 h32 => exact goodState_default _ _ _
  | step s dt t l r hs h0 h1 ih => exact updatePhysics_good s dt t l r h0 h1 ih
  | reset s hs ih => exact goodState_default _ _ _

lemma updatePhysics_posx (s : SimApp) (dt : ℝ) (t l r : Bool)
    (hfly : s.lander.state = SimState.Flying) :
    (updatePhysics s dt t l r).lander.pos.x
      = (integrate s.lander dt t l r).pos.x := by
  simp only [updatePhysics]
  rw [if_neg (by simp [hfly])]
  split_ifs <;> rfl

lemma integrate_nothrust_posx (ld : Lander) (dt : ℝ) (l r : Bool) :
    (integrate ld dt false l r).pos.x =
      (if (if ld.pos.x + ld.vel.x * dt < 0 then ld.pos.x + ld.vel.x * dt + WORLD_WIDTH
           else ld.pos.x + ld.vel.x * dt) > WORLD_WIDTH
       then (if ld.pos.x + ld.vel.x * dt < 0 then ld.pos.x + ld.vel.x * dt + WORLD_WIDTH
             else ld.pos.x + ld.vel.x * dt) - WORLD_WIDTH
       else (if ld.pos.x + ld.vel.x * dt < 0 then ld.pos.x + ld.vel.x * dt + WORLD_WIDTH
             else ld.pos.x + ld.vel.x * dt)) := by
  simp only [integrate, Bool.false_and, Bool.false_eq_true, if_false]

-- ======================================================================
-- C5: toroidal horizontal wrap
-- ======================================================================

/-- C5: a flying ship whose integrated `x` is `WORLD_WIDTH + 0.1` is
repositioned to exactly `0.1`, and every reachable state has
`pos.x ∈ [0, WORLD_WIDTH]`. -/
theorem horizontal_wrap :
    (∀ (s : SimApp) (dt : ℝ) (l r : Bool),
      s.lander.state = SimState.Flying →
      s.lander.pos.x + s.lander.vel.x * dt = WORLD_WIDTH + 0.1 →
      (updatePhysics s dt false l r).lander.pos.x = 0.1) ∧
    (∀ s : SimApp, Reachable s →
      0 ≤ s.lander.pos.x ∧ s.lander.pos.x ≤ WORLD_WIDTH) := by
  constructor
  · intro s dt l r hfly hpos
    rw [updatePhysics_posx s dt false l r hfly, integrate_nothrust_posx, hpos]
    rw [if_neg (show ¬(WORLD_WIDTH + 0.1 < 0) by unfold WORLD_WIDTH; norm_num)]
    rw [if_pos (show WORLD_WIDTH + 0.1 > WORLD_WIDTH by unfold WORLD_WIDTH; norm_num)]
    unfold WORLD_WIDTH
    norm_num
  · intro s h
    obtain ⟨_, _, _, _, hx0, hx1⟩ := reachable_good s h
    exact ⟨hx0, hx1⟩

/-- A flying ship at the right world edge moving right. -/
def wrapApp : SimApp :=
  { lander := { pos := ⟨40, 10⟩, vel := ⟨1, 0⟩, angle := 0, fuel := 100,
                thrusting := false, state := SimState.Flying }
    terrainPoints := flatTerrain
    landingPadX := 20
    stars := [] }

/-- Witness for C5: the ship integrating to `x = 40.1` wraps to `0.1`, and
a freshly initialized app is in bounds. -/
theorem horizontal_wrap_witness :
    (updatePhysics wrapApp 0.1 false false false).lander.pos.x = 0.1 ∧
    (0 ≤ (⟨landerDefault, generateTerrain 20, 20, []⟩ : SimApp).lander.pos.x ∧
     (⟨landerDefault, generateTerrain 20, 20, []⟩ : SimApp).lander.pos.x
        ≤ WORLD_WIDTH) :=
  ⟨horizontal_wrap.1 wrapApp 0.1 false false rfl
      (by norm_num [wrapApp, WORLD_WIDTH]),
   horizontal_wrap.2 _ (Reachable.init 20 [] (by norm_num)
      (by norm_num [WORLD_WIDTH]))⟩

-- ======================================================================
-- C8: fuel stays in [0, 100]
-- ======================================================================

lemma integrate_thrusting_eq (ld : Lander) (dt : ℝ) (t l r : Bool) :
    (integrate ld dt t l r).thrusting = (t && decide (ld.fuel > 0)) := rfl

lemma integrate_fuel_eq (ld : Lander) (dt : ℝ) (t l r : Bool) :
    (integrate ld dt t l r).fuel
      = if (t && decide (ld.fuel > 0)) = true
        then max (ld.fuel - FUEL_BURN_RATE * dt) 0 else ld.fuel := rfl

lemma updatePhysics_fuel_thrusting (s : SimApp) (dt : ℝ) (t l r : Bool)
    (hfly : s.lander.state = SimState.Flying) :
    (updatePhysics s dt t l r).lander.fuel = (integrate s.lander dt t l r).fuel ∧
    (updatePhysics s dt t l r).lander.thrusting
      = (integrate s.lander dt t l r).thrusting := by
  simp only [updatePhysics]
  rw [if_neg (by simp [hfly])]
  split_ifs <;> exact ⟨rfl, rfl⟩

/-- C8: `updatePhysics` never increases fuel (for `dt ≥ 0`); while flying
the thrusting flag is set iff thrust is held and fuel is positive, and fuel
is decremented by `FUEL_BURN_RATE * dt` floored at 0 exactly when
thrusting; reset restores fuel to 100; every reachable state has fuel in
`[0, 100]`. -/
theorem fuel_invariant :
    (∀ (s : SimApp) (dt : ℝ) (t l r : Bool), 0 ≤ dt → 0 ≤ s.lander.fuel →
      (updatePhysics s dt t l r).lander.fuel ≤ s.lander.fuel) ∧
    (∀ (s : SimApp) (dt : ℝ) (t l r : Bool), s.lander.state = SimState.Flying →
      ((updatePhysics s dt t l r).lander.thrusting = true ↔
        (t = true ∧ 0 < s.lander.fuel))) ∧
    (∀ (s : SimApp) (dt : ℝ) (t l r : Bool), s.lander.state = SimState.Flying →
      (updatePhysics s dt t l r).lander.fuel =
        (if (updatePhysics s dt t l r).lander.thrusting = true
         then max (s.lander.fuel - FUEL_BURN_RATE * dt) 0 else s.lander.fuel)) ∧
    (∀ s : SimApp, (resetLander s).lander.fuel = 100) ∧
    (∀ s : SimApp, Reachable s →
      0 ≤ s.lander.fuel ∧ s.lander.fuel ≤ 100) := by
  refine ⟨?_, ?_, ?_, fun s => rfl, ?_⟩
  · intro s dt t l r h0 hf0
    by_cases hfly : s.lander.state = SimState.Flying
    · rw [(updatePhysics_fuel_thrusting s dt t l r hfly).1, integrate_fuel_eq]
      split_ifs
      · apply max_le ?_ hf0
        unfold FUEL_BURN_RATE
        nlinarith
      · exact le_refl _
    · simp only [updatePhysics]
      rw [if_pos hfly]
  · intro s dt t l r hfly
    rw [(updatePhysics_fuel_thrusting s dt t l r hfly).2, integrate_thrusting_eq]
    simp only [Bool.and_eq_true, decide_eq_true_eq]
  · intro s dt t l r hfly
    rw [(updatePhysics_fuel_thrusting s dt t l r hfly).1, integrate_fuel_eq]
    rw [(updatePhysics_fuel_thrusting s dt t l r hfly).2, integrate_thrusting_eq]
  · intro s h
    obtain ⟨hf0, hf1, _, _, _, _⟩ := reachable_good s h
    exact ⟨hf0, hf1⟩

/-- Witness for C8 at concrete states: a tick from `freefallApp`, the
thrusting-flag equivalence and fuel equation there, reset, and a freshly
initialized app. -/
theorem fuel_invariant_witness :
    (updatePhysics freefallApp 0.1 true true false).lander.fuel
        ≤ freefallApp.lander.fuel ∧
    ((updatePhysics freefallApp 0.1 true false false).lander.thrusting = true ↔
      (true = true ∧ 0 < freefallApp.lander.fuel)) ∧
    (updatePhysics freefallApp 0.1 true false false).lander.fuel =
      (if (updatePhysics freefallApp 0.1 true false false).lander.thrusting = true
       then max (freefallApp.lander.fuel - FUEL_BURN_RATE * 0.1) 0
       else freefallApp.lander.fuel) ∧
    (resetLander freefallApp).lander.fuel = 100 ∧
    (0 ≤ (⟨landerDefault, generateTerrain 20, 20, []⟩ : SimApp).lander.fuel ∧
     (⟨landerDefault, generateTerrain 20, 20, []⟩ : SimApp).lander.fuel ≤ 100) :=
  ⟨fuel_invariant.1 freefallApp 0.1 true true false (by norm_num)
      (by norm_num [freefallApp]),
   fuel_invariant.2.1 freefallApp 0.1 true false false rfl,
   fuel_invariant.2.2.1 freefallApp 0.1 true false false rfl,
   fuel_invariant.2.2.2.1 freefallApp,
   fuel_invariant.2.2.2.2 _ (Reachable.init 20 [] (by norm_num)
      (by norm_num [WORLD_WIDTH]))⟩

-- ======================================================================
-- C4: terrain height on the landing pad
-- ======================================================================

lemma sin_pos_shift (x : ℝ) (n : ℤ) (h1 : 0 < x - n * (2 * Real.pi))
    (h2 : x - n * (2 * Real.pi) < Real.pi) : 0 < Real.sin x := by
  have h := Real.sin_pos_of_pos_of_lt_pi h1 h2
  have he := Real.sin_add_int_mul_two_pi (x - n * (2 * Real.pi)) n
  rw [sub_add_cancel] at he
  rw [he]
  exact h

/-- C4 (amended): the interpolated height equals 2 exactly for every `x` at
least one sample spacing inside the pad range, for every admissible pad
center. -/
theorem pad_height_exact_amended (padX x : ℝ)
    (h8 : 8 ≤ padX) (h32 : padX ≤ WORLD_WIDTH - 8)
    (hx1 : padX - LANDING_PAD_WIDTH / 2 + WORLD_WIDTH / (TERRAIN_SEGMENTS : ℝ) ≤ x)
    (hx2 : x ≤ padX + LANDING_PAD_WIDTH / 2 - WORLD_WIDTH / (TERRAIN_SEGMENTS : ℝ)) :
    getTerrainHeight (generateTerrain padX) x = 2 := by
  have hdx : WORLD_WIDTH / ((TERRAIN_SEGMENTS : ℕ) : ℝ) = 0.2 := by
    norm_num [WORLD_WIDTH, TERRAIN_SEGMENTS]
  have hLP : LANDING_PAD_WIDTH = 3 := rfl
  have hWW : WORLD_WIDTH = 40 := rfl
  rw [hdx, hLP] at hx1 hx2
  rw [hWW] at h32
  have hx67 : (6.7 : ℝ) ≤ x := by linarith
  have hx333 : x ≤ 33.3 := by linarith
  have hdiv : x / 0.2 = 5 * x := by ring
  set n : ℤ := ⌊x / 0.2⌋ with hn
  have hfl1 : (n : ℝ) ≤ 5 * x := by rw [← hdiv]; exact Int.floor_le _
  have hfl2 : 5 * x < (n : ℝ) + 1 := by rw [← hdiv]; exact Int.lt_floor_add_one _
  have hn0 : 0 ≤ n := Int.floor_nonneg.mpr (by rw [hdiv]; linarith)
  have hn166 : n ≤ 166 := by
    have h167 : (n : ℝ) < 167 := by linarith
    exact_mod_cast Int.lt_add_one_iff.mp (by exact_mod_cast h167)
  have hcast : ((n.toNat : ℕ) : ℝ) = (n : ℝ) := by
    exact_mod_cast Int.toNat_of_nonneg hn0
  have hcast2 : ((n.toNat + 1 : ℕ) : ℝ) = (n : ℝ) + 1 := by
    push_cast
    rw [hcast]
  have htr : truncInt (x / 0.2) = n := by
    unfold truncInt
    rw [if_pos (div_nonneg (by linarith) (by norm_num))]
  have hcl : clampInt n 0 199 = n := by
    unfold clampInt
    rw [if_neg (by omega), if_neg (by omega)]
  have hi201 : n.toNat < 201 := by omega
  have hi201' : n.toNat + 1 < 201 := by omega
  have hh0 : terrainHeightAt padX (((n.toNat : ℕ) : ℝ)
      * (WORLD_WIDTH / (TERRAIN_SEGMENTS : ℝ))) = 2 := by
    apply terrainHeightAt_pad
    · rw [hdx, hcast, hLP]
      linarith
    · rw [hdx, hcast, hLP]
      linarith
  have hh1 : terrainHeightAt padX (((n.toNat + 1 : ℕ) : ℝ)
      * (WORLD_WIDTH / (TERRAIN_SEGMENTS : ℝ))) = 2 := by
    apply terrainHeightAt_pad
    · rw [hdx, hcast2, hLP]
      linarith
    · rw [hdx, hcast2, hLP]
      linarith
  simp only [getTerrainHeight]
  rw [if_neg (by rw [generateTerrain_ne_nil]; exact Bool.false_ne_true)]
  rw [generateTerrain_length]
  rw [show (((201 : ℕ) : ℤ) - 2) = 199 from by norm_num]
  rw [hdx, htr, hcl]
  rw [generateTerrain_getD padX n.toNat hi201,
    generateTerrain_getD padX (n.toNat + 1) hi201']
  rw [hh0, hh1]
  norm_num [mix]

/-- Witness for the amended C4 at pad center 20 and `x = 20`. -/
theorem pad_height_exact_amended_witness :
    getTerrainHeight (generateTerrain 20) 20 = 2 :=
  pad_height_exact_amended 20 20 (by norm_num) (by norm_num [WORLD_WIDTH])
    (by norm_num [LANDING_PAD_WIDTH, WORLD_WIDTH, TERRAIN_SEGMENTS])
    (by norm_num [LANDING_PAD_WIDTH, WORLD_WIDTH, TERRAIN_SEGMENTS])

/-- C4 counterexample: for the generated terrain with pad center `10.4`,
the point `x = 8.95` lies inside the pad range `[8.9, 11.9]` (and `10.4` is
an admissible pad center), yet the interpolated height differs from 2,
because the left neighboring sample at `8.8` is a smoothed off-pad sample. -/
theorem pad_height_exact_counterexample :
    (10.4 - LANDING_PAD_WIDTH / 2 ≤ (8.95 : ℝ) ∧
     (8.95 : ℝ) ≤ 10.4 + LANDING_PAD_WIDTH / 2) ∧
    ((8 : ℝ) ≤ 10.4 ∧ (10.4 : ℝ) ≤ WORLD_WIDTH - 8) ∧
    getTerrainHeight (generateTerrain 10.4) 8.95 ≠ 2 := by
  refine ⟨⟨by norm_num [LANDING_PAD_WIDTH], by norm_num [LANDING_PAD_WIDTH]⟩,
    ⟨by norm_num, by norm_num [WORLD_WIDTH]⟩, ?_⟩
  have hpiL := Real.pi_gt_d6
  have hpiU := Real.pi_lt_d6
  have s1 : 0 < Real.sin 2.64 :=
    Real.sin_pos_of_pos_of_lt_pi (by norm_num) (by linarith)
  have s2 : 0 < Real.sin 7.16 := by
    refine sin_pos_shift 7.16 1 ?_ ?_ <;> push_cast <;> linarith
  have s3 : 0 < Real.sin 15.2 := by
    refine sin_pos_shift 15.2 2 ?_ ?_ <;> push_cast <;> linarith
  have s4 : 0 < Real.sin 26.9 := by
    refine sin_pos_shift 26.9 4 ?_ ?_ <;> push_cast <;> linarith
  set S : ℝ := 1.5 * Real.sin 2.64 + 0.8 * Real.sin 7.16
      + 0.4 * Real.sin 15.2 + 0.2 * Real.sin 26.9 with hS
  have hSpos : 0 < S := by
    rw [hS]
    linarith
  have h44 : terrainHeightAt 10.4 8.8 = 2 + 0.0025 * S := by
    simp only [terrainHeightAt, LANDING_PAD_WIDTH]
    rw [if_neg (by norm_num)]
    rw [show (8.8 : ℝ) * 0.3 = 2.64 by norm_num]
    rw [show (8.8 : ℝ) * 0.7 + 1 = 7.16 by norm_num]
    rw [show (8.8 : ℝ) * 1.5 + 2 = 15.2 by norm_num]
    rw [show (8.8 : ℝ) * 3 + 0.5 = 26.9 by norm_num]
    rw [max_eq_left (show (0.5 : ℝ) ≤ 2 + 1.5 * Real.sin 2.64 + 0.8 * Real.sin 7.16
        + 0.4 * Real.sin 15.2 + 0.2 * Real.sin 26.9 by linarith)]
    rw [show |(8.8 : ℝ) - (10.4 - 3 / 2)| = 0.1 by
      rw [abs_sub_comm, abs_of_nonneg (by norm_num : (0:ℝ) ≤ 10.4 - 3 / 2 - 8.8)]
      norm_num]
    rw [show |(8.8 : ℝ) - (10.4 + 3 / 2)| = 3.1 by
      rw [abs_sub_comm, abs_of_nonneg (by norm_num : (0:ℝ) ≤ 10.4 + 3 / 2 - 8.8)]
      norm_num]
    rw [min_eq_left (by norm_num : (0.1 : ℝ) ≤ 3.1)]
    rw [if_pos (by norm_num : (0.1 : ℝ) < 2)]
    simp only [mix]
    rw [hS]
    ring
  have hg44 : (generateTerrain 10.4).getD 44 default = ⟨8.8, 2 + 0.0025 * S⟩ := by
    rw [generateTerrain_getD 10.4 44 (by norm_num)]
    rw [show ((44 : ℕ) : ℝ) * (WORLD_WIDTH / (TERRAIN_SEGMENTS : ℝ)) = 8.8 by
      norm_num [WORLD_WIDTH, TERRAIN_SEGMENTS]]
    rw [h44]
  have hg45 : (generateTerrain 10.4).getD 45 default = ⟨9, 2⟩ := by
    rw [generateTerrain_getD 10.4 45 (by norm_num)]
    rw [show ((45 : ℕ) : ℝ) * (WORLD_WIDTH / (TERRAIN_SEGMENTS : ℝ)) = 9 by
      norm_num [WORLD_WIDTH, TERRAIN_SEGMENTS]]
    rw [terrainHeightAt_pad 10.4 9 (by norm_num [LANDING_PAD_WIDTH])
      (by norm_num [LANDING_PAD_WIDTH])]
  have hmain : getTerrainHeight (generateTerrain 10.4) 8.95 = 2 + 0.000625 * S := by
    simp only [getTerrainHeight]
    rw [if_neg (by rw [generateTerrain_ne_nil]; exact Bool.false_ne_true)]
    rw [generateTerrain_length]
    rw [show ((8.95 : ℝ) / (WORLD_WIDTH / (TERRAIN_SEGMENTS : ℝ))) = 44.75 by
      norm_num [WORLD_WIDTH, TERRAIN_SEGMENTS]]
    rw [show truncInt (44.75 : ℝ) = 44 by
      unfold truncInt
      rw [if_pos (by norm_num)]
      norm_num [Int.floor_eq_iff]]
    rw [show clampInt 44 0 (((201 : ℕ) : ℤ) - 2) = 44 by
      unfold clampInt
      rw [if_neg (by norm_num), if_neg (by norm_num)]]
    rw [show ((44 : ℤ)).toNat = 44 from rfl]
    rw [show ((44 : ℕ) + 1) = 45 from rfl]
    rw [hg44, hg45]
    rw [show ((⟨8.8, 2 + 0.0025 * S⟩ : Vec2)).x = 8.8 from rfl]
    rw [show ((⟨8.8, 2 + 0.0025 * S⟩ : Vec2)).y = 2 + 0.0025 * S from rfl]
    rw [show ((⟨9, 2⟩ : Vec2)).y = (2 : ℝ) from rfl]
    rw [show ((8.95 : ℝ) - 8.8) / (WORLD_WIDTH / (TERRAIN_SEGMENTS : ℝ)) = 0.75 by
      norm_num [WORLD_WIDTH, TERRAIN_SEGMENTS]]
    rw [show clampR (0.75 : ℝ) 0 1 = 0.75 by
      unfold clampR
      rw [if_neg (by norm_num), if_neg (by norm_num)]]
    simp only [mix]
    ring
  rw [hmain]
  intro h
  have hS0 : S = 0 := by linarith
  linarith

end Luna

end
